import Mathlib

/-
Verification of the collection-sort repository: a shallow embedding of its
ingestion, ranking, aggregation and bundle-capacity engine, followed by
theorems settling the specification claims.

Embedded sources:
- app/routes/auth.exitframe.tsx (api.sort action: decorate, comparator, top-N cap)
- app/routes/api.sort-all.ts (batch-all ranking loop)
- app/server/sortCollection.ts (move instructions, 250-chunking)
- app/routes/api.bundles.create.ts and its quantities-query revision
  (src/unnamed/part_011): bundle capacity and the inventory-query fallback
- app/routes/api.analytics.kpis.ts (KPI formulas)
- app/routes/api.analytics.ingest.ts (src/unnamed/part_013: order-line upsert,
  IngestCursor upsert)
- app/server/strategy.server.ts (src/unnamed/part_003: loadCollectionRules)

JS numbers that only ever hold integral values are modeled as Int (or Nat where
the source value is a count), money amounts as Rat. Databases keyed by a
primary-key column are modeled as functions from the key to Option row, which
bakes in the table's primary-key uniqueness (see prisma/migrations/0_init:
OrderLine_pkey on id, IngestCursor_pkey on shop).
-/

namespace CollectionSort

/-- Code-point comparison of two character lists: the lexicographic
(case-sensitive) strict order on JS strings. -/
def charsLt : List Char → List Char → Bool
  | [], [] => false
  | [], _ :: _ => true
  | _ :: _, [] => false
  | a :: as, b :: bs =>
    if a.toNat < b.toNat then true
    else if b.toNat < a.toNat then false
    else charsLt as bs

/-- Strict lexicographic (code-point) order on strings. -/
def jsStrLt (a b : String) : Bool := charsLt a.data b.data

/-- Model of JS `a.localeCompare(b)` used as the final tie-break of the ranking
comparator. ECMA-262 leaves the collation implementation-defined; we model it
as code-point lexicographic comparison (the behavior of an ICU-less runtime),
returning the sign that the comparator consumes. -/
def localeCompare (a b : String) : Int :=
  if jsStrLt a b then -1 else if jsStrLt b a then 1 else 0

/-- One variant edge node of the collection-products query
(`variants(first: 100) { edges { node { availableForSale ... } } }`). -/
structure RawVariant where
  availableForSale : Bool
deriving DecidableEq

/-- One product node fetched from a collection (auth.exitframe.tsx
fetchCollectionProducts / api.sort-all.ts fetchProductsWithVariants). -/
structure RawProduct where
  id : String
  title : String
  variants : List RawVariant
deriving DecidableEq

/-- The decorated record built before sorting:
`{ id, title, inStock, variantInStock, sold90 }`. -/
structure DecoratedProduct where
  id : String
  title : String
  inStock : Bool
  variantInStock : Int
  sold90 : Int
deriving DecidableEq

/-- Decoration step (auth.exitframe.tsx lines 172-180 / api.sort-all.ts
lines 115-122): count available variants, derive inStock, read the 90-day
sales count with default 0. -/
def decorate (sales90 : String → Option Int) (p : RawProduct) : DecoratedProduct :=
  let variantInStock : Int :=
    p.variants.foldl (fun n v => n + (if v.availableForSale then 1 else 0)) 0
  { id := p.id
    title := p.title
    inStock := decide (0 < variantInStock)
    variantInStock := variantInStock
    sold90 := (sales90 p.id).getD 0 }

/-- The ranking comparator (auth.exitframe.tsx lines 184-189 / api.sort-all.ts
lines 125-130):
in-stock first, then 90-day sales descending, then variants-in-stock
descending, then title via localeCompare. -/
def cmpProducts (a b : DecoratedProduct) : Int :=
  if a.inStock ≠ b.inStock then (if a.inStock then -1 else 1)
  else if a.sold90 ≠ b.sold90 then b.sold90 - a.sold90
  else if a.variantInStock ≠ b.variantInStock then b.variantInStock - a.variantInStock
  else localeCompare a.title b.title

/-- Stable insertion of an element into a list already sorted by the
comparator: the element goes before the first entry it does not compare
strictly after. -/
def sortInsert {α : Type} (c : α → α → Int) (a : α) : List α → List α
  | [] => [a]
  | b :: l => if c a b ≤ 0 then a :: b :: l else b :: sortInsert c a l

/-- Model of JS `Array.prototype.sort(c)`: a stable sort whose output is
ordered by the comparator (ES2019 requires sort to be stable; for the
consistent comparators used here any stable comparator sort computes the same
list, so insertion sort is a faithful model). -/
def jsSort {α : Type} (c : α → α → Int) : List α → List α
  | [] => []
  | a :: l => sortInsert c a (jsSort c l)

/-- The desired order of a collection: decorate every fetched product, sort by
the ranking comparator, keep the ids
(`decorated.sort(...).map(x => x.id)`). -/
def rankIds (sales90 : String → Option Int) (items : List RawProduct) : List String :=
  (jsSort cmpProducts (items.map (decorate sales90))).map DecoratedProduct.id

/-- One positional move instruction of collectionReorderProducts
(app/server/sortCollection.ts line 20). The source serializes the index as
`String(idx)` for the API payload; the position itself is the zero-based
numeric index modeled here. -/
structure Move where
  id : String
  newPosition : Nat
deriving DecidableEq

/-- Conversion of the desired order into move instructions:
`desiredOrder.map((id, idx) => ({ id, newPosition: String(idx) }))`. -/
def movesOf (desiredOrder : List String) : List Move :=
  desiredOrder.enum.map (fun p => { id := p.2, newPosition := p.1 })

/-- The chunked submission loop of sortCollection.ts lines 21-22:
`for (let i = 0; i < moves.length; i += 250) chunk = moves.slice(i, i + 250)`.
Iteration k of the loop takes the slice starting at k*250; the loop runs
ceil(moves.length / 250) times. -/
def moveChunks (moves : List Move) : List (List Move) :=
  (List.range ((moves.length + 249) / 250)).map (fun k => (moves.drop (k * 250)).take 250)

/-- Default top-N cap of the api.sort action (auth.exitframe.tsx line 203). -/
def DEFAULT_TOP_N : Nat := 500

/-- The top-N cap (auth.exitframe.tsx lines 204-206):
`Number.isFinite(topN) ? Math.max(0, Math.min(desired.length, Number(topN))) : DEFAULT_TOP_N`;
none models a non-finite/absent topN. -/
def capOf (topN : Option Int) (len : Nat) : Nat :=
  match topN with
  | some t => (max 0 (min (len : Int) t)).toNat
  | none => DEFAULT_TOP_N

/-- The capped order actually applied: `desired.slice(0, cap)`. -/
def applyTopN (topN : Option Int) (desired : List String) : List String :=
  desired.take (capOf topN desired.length)

/-- One bundle component of the request body: `{ variantId, qty }`. -/
structure Component where
  variantId : String
  qty : Int
deriving DecidableEq

/-- Per-component capacity (api.bundles.create.ts lines 62-64):
`have = Number(avail.get(c.variantId) ?? 0)`,
`need = Math.max(1, Number(c.qty) || 1)` (for integral qty, `q || 1` only
replaces 0 by 1, which max with 1 does as well), `Math.floor(have / need)`
with JS floor division modeled by Int.fdiv. -/
def capThis (avail : String → Option Int) (c : Component) : Int :=
  Int.fdiv ((avail c.variantId).getD 0) (max 1 c.qty)

/-- The capacity loop of api.bundles.create.ts lines 60-67:
`capacity` starts at null (modeled none), each component folds in
`Math.min`, and a final null becomes 0. -/
def capacityOf (avail : String → Option Int) (components : List Component) : Int :=
  let r := components.foldl
    (fun capacity c =>
      match capacity with
      | none => some (capThis avail c)
      | some v => some (min v (capThis avail c)))
    (none : Option Int)
  r.getD 0

/-- The capacity loop of the quantities-query revision (src/unnamed/part_011
lines 95-102): `capacity` starts at `components.length ? Infinity : 0`
(Infinity modeled as none, a final Infinity becomes 0, and
`Math.min(Infinity, x) = x`). -/
def capacityOfInf (avail : String → Option Int) (components : List Component) : Int :=
  let init : Option Int := if components.isEmpty then some 0 else none
  let r := components.foldl
    (fun capacity c =>
      match capacity with
      | none => some (capThis avail c)
      | some v => some (min v (capThis avail c)))
    init
  r.getD 0

/-- A JSON GraphQL response body: a top-level errors array (empty when absent)
and an optional data payload. -/
structure GraphQLResult (α : Type) where
  errors : List String
  data : Option α
deriving DecidableEq

/-- `hasGraphQLErr(o)`: the errors array is a non-empty list
(src/unnamed/part_011 lines 9-11). -/
def hasGraphQLErr {α : Type} (r : GraphQLResult α) : Bool := !(r.errors.isEmpty)

/-- One `quantities(names: ["available"])` entry. -/
structure QuantityEntry where
  name : String
  quantity : Int
deriving DecidableEq

/-- One node of the primary (structured per-location) inventory query:
a ProductVariant with its inventoryLevels quantity lists. A node of another
type has id none; a missing inventoryItem is modeled by an empty levels
list (source applies `?? 0` to the missing reduce). -/
structure PrimaryNode where
  id : Option String
  levels : List (List QuantityEntry)
deriving DecidableEq

/-- One node of the fallback query using the deprecated aggregate
`inventoryQuantity` field. -/
structure FallbackNode where
  id : Option String
  inventoryQuantity : Option Int
deriving DecidableEq

/-- The two inventory query results available to one bundle-capacity request:
the primary structured form and the deprecated aggregate fallback form. -/
structure InventoryEnv where
  primary : GraphQLResult (List PrimaryNode)
  fallback : GraphQLResult (List FallbackNode)

/-- Available quantity contributed by one inventory level
(src/unnamed/part_011 lines 87-89): the entry named "available", defaulting
to 0 (`q || 0` only maps falsy 0 to 0). -/
def levelAvailable (qs : List QuantityEntry) : Int :=
  (((qs.find? (fun x => x.name == "available")).map QuantityEntry.quantity).getD 0)

/-- Availability entries extracted from the primary query result
(src/unnamed/part_011 lines 83-92): nodes without id are skipped, per-node
total is the sum over inventory levels. -/
def primaryAvailEntries (nodes : List PrimaryNode) : List (String × Int) :=
  nodes.filterMap
    (fun n => n.id.map (fun i => (i, n.levels.foldl (fun s qs => s + levelAvailable qs) 0)))

/-- Availability entries extracted from the fallback query result
(src/unnamed/part_011 lines 78-81): `Number(n.inventoryQuantity ?? 0)`. -/
def fallbackAvailEntries (nodes : List FallbackNode) : List (String × Int) :=
  nodes.filterMap (fun n => n.id.map (fun i => (i, n.inventoryQuantity.getD 0)))

/-- The availByVariant Map built by successive `Map.set` calls: a later entry
for the same key overwrites an earlier one. -/
def availMapOf (entries : List (String × Int)) : String → Option Int :=
  entries.foldl (fun m e => fun k => if k = e.1 then some e.2 else m k) (fun _ => none)

/-- The inventory-availability fetch with fallback (src/unnamed/part_011
lines 55-93): if the primary quantities() query is rejected, issue the
fallback inventoryQuantity query; fail (with the joined error messages) only
when that one is rejected too. -/
def fetchAvailability (env : InventoryEnv) : Except String (String → Option Int) :=
  if hasGraphQLErr env.primary then
    if hasGraphQLErr env.fallback then
      Except.error (String.intercalate "; " env.fallback.errors)
    else Except.ok (availMapOf (fallbackAvailEntries (env.fallback.data.getD [])))
  else Except.ok (availMapOf (primaryAvailEntries (env.primary.data.getD [])))

/-- The whole capacity calculation of the quantities-query revision: fetch
availability (with fallback), then run the capacity loop. -/
def computeBundleCapacity (env : InventoryEnv) (components : List Component) :
    Except String Int :=
  match fetchAvailability env with
  | Except.error e => Except.error e
  | Except.ok avail => Except.ok (capacityOfInf avail components)

/-- One remote order line item together with the order fields the ingestion
loop reads (src/unnamed/part_013 lines 129-143). `amount` models
`Number(li.discountedTotalSet?.shopMoney?.amount ?? 0)` with none standing
for a missing or non-finite amount (both default to 0). -/
structure RemoteLineItem where
  id : String
  orderId : String
  orderCreatedAt : Int
  currencyCode : Option String
  productId : Option String
  variantId : Option String
  quantity : Option Int
  amount : Option Rat
deriving DecidableEq

/-- A stored OrderLine row (prisma/migrations/0_init: OrderLine). -/
structure OrderLineRow where
  orderId : String
  createdAt : Int
  productId : Option String
  variantId : Option String
  qty : Int
  currency : String
  netAmount : Rat
deriving DecidableEq

/-- The row built by the upsert's create branch. -/
def rowOfRemote (li : RemoteLineItem) : OrderLineRow :=
  { orderId := li.orderId
    createdAt := li.orderCreatedAt
    productId := li.productId
    variantId := li.variantId
    qty := li.quantity.getD 0
    currency := li.currencyCode.getD "AUD"
    netAmount := li.amount.getD 0 }

/-- The OrderLine table, keyed by its primary key id. -/
abbrev OrderLineDB := String → Option OrderLineRow

/-- `prisma.orderLine.upsert({ where: { id: li.id }, update: {}, create: {...} })`
(src/unnamed/part_013 lines 130-143): an existing row is left untouched
(empty update object), a missing row is created. -/
def ingestOrderLine (db : OrderLineDB) (li : RemoteLineItem) : OrderLineDB :=
  fun k =>
    if k = li.id then
      match db li.id with
      | some row => some row
      | none => some (rowOfRemote li)
    else db k

/-- The IngestCursor table, keyed by its primary key shop. -/
abbrev CursorDB := String → Option String

/-- The sinceISO used by one ingestion run (src/unnamed/part_013 lines 48-52):
the explicit since parameter when present, otherwise the YYYY-MM-DD rendering
of now − days·86400000; the rendering (`toISOString().slice(0, 10)`) is an
external date primitive passed in as defaultISO. -/
def sinceISOOf (defaultISO : Int → Int → String) (since : Option String) (now days : Int) :
    String :=
  since.getD (defaultISO now days)

/-- `prisma.ingestCursor.upsert({ where: { shop }, update: { sinceISO },
create: { shop, sinceISO } })` executed after a successful run
(src/unnamed/part_013 lines 180-184): the shop's single row is set to the
run's sinceISO either way. -/
def upsertIngestCursor (db : CursorDB) (shop sinceISO : String) : CursorDB :=
  fun s => if s = shop then some sinceISO else db s

/-- One collection reference from the paginated collections listing. -/
structure CollectionRef where
  id : String
  title : String
deriving DecidableEq

/-- The external calls a batch-all run makes per collection, each of which can
throw (api.sort-all.ts: fetchProductsWithVariants, fetchSalesCounts,
sortCollection). -/
structure BatchEnv where
  fetchProducts : String → Except String (List RawProduct)
  fetchSales : List String → Except String (String → Option Int)
  applySort : String → List String → Except String Unit

/-- One entry of the batch-all results list (api.sort-all.ts lines 110-143):
a skipped-empty record, a dry-run preview record, a moved record, or an error
record from the per-collection catch. -/
inductive BatchResult where
  | errorResult (id title msg : String)
  | skippedEmpty (id title : String)
  | previewResult (id title : String) (considered : Nat) (preview : List String)
  | movedResult (id title : String) (moved considered : Nat)
deriving DecidableEq

/-- The body of the per-collection try/catch (api.sort-all.ts lines 107-145):
fetch products (throw → error entry), empty → skipped entry, fetch sales
(throw → error entry), rank, then either a dry-run preview entry or apply
(throw → error entry) and a moved entry. The batch route applies
`desired.slice(0, topN)` without clamping; non-negative topN is modeled. -/
def processCollection (env : BatchEnv) (dryRun : Bool) (topN : Nat) (c : CollectionRef) :
    BatchResult :=
  match env.fetchProducts c.id with
  | Except.error e => BatchResult.errorResult c.id c.title e
  | Except.ok items =>
    if items.isEmpty then BatchResult.skippedEmpty c.id c.title
    else
      match env.fetchSales (items.map RawProduct.id) with
      | Except.error e => BatchResult.errorResult c.id c.title e
      | Except.ok sales90 =>
        let desired := rankIds sales90 items
        if dryRun then BatchResult.previewResult c.id c.title desired.length (desired.take 10)
        else
          let toApply := desired.take topN
          match env.applySort c.id toApply with
          | Except.error e => BatchResult.errorResult c.id c.title e
          | Except.ok _ => BatchResult.movedResult c.id c.title toApply.length desired.length

/-- The batch loop over the target collections, accumulating one results entry
per collection in order. -/
def processAll (env : BatchEnv) (dryRun : Bool) (topN : Nat) :
    List CollectionRef → List BatchResult
  | [] => []
  | c :: rest => processCollection env dryRun topN c :: processAll env dryRun topN rest

/-- The KPI day window (api.analytics.kpis.ts line 11):
`Math.max(14, Number(url.searchParams.get("days") || "28"))`; none models an
absent days parameter. -/
def kpiDays (param : Option Rat) : Rat := max 14 (param.getD 28)

/-- The week count: `weeks = days / 7` (api.analytics.kpis.ts line 13). -/
def kpiWeeks (param : Option Rat) : Rat := kpiDays param / 7

/-- Per-variant KPI record (api.analytics.kpis.ts lines 42-44); wos none
models the JS Infinity produced when the weekly rate is not positive. -/
structure VariantKpi where
  weekly : Rat
  wos : Option Rat
  sellThrough : Rat
deriving DecidableEq

/-- The per-variant KPI computation (api.analytics.kpis.ts lines 39-44):
`weekly = u / weeks`, `wos = weekly > 0 ? on / weekly : Infinity`,
`sellThrough = (u + on) > 0 ? (u * 100) / (u + on) : 0`. -/
def variantKpi (weeks onHand u : Rat) : VariantKpi :=
  let weekly := u / weeks
  { weekly := weekly
    wos := if 0 < weekly then some (onHand / weekly) else none
    sellThrough := if 0 < u + onHand then (u * 100) / (u + onHand) else 0 }

/-- The five known sort rule identifiers, in default order
(app/server/strategy.server.ts DEFAULT_RULES). -/
def DEFAULT_RULES : List String :=
  ["in_stock", "sales_90d", "variants_in_stock", "alpha", "oos_last"]

/-- Outcome of reading the custom.sort_rules metafield and running JSON.parse
on it (src/unnamed/part_003 lines 34-38): the value may be absent/empty
(falsy raw), unparseable (JSON.parse throws), parsed with a non-array rules
field, or parsed with an array of rule strings. -/
inductive RulesValue where
  | missing
  | parseError
  | parsedNonArray
  | parsedRules (rules : List String)
deriving DecidableEq

/-- loadCollectionRules (src/unnamed/part_003 lines 28-45) after the read and
parse step: falsy raw value and parse failure return the defaults; a
non-array rules field is replaced by the defaults; the resulting array is
filtered to known identifiers. -/
def loadCollectionRules (v : RulesValue) : List String :=
  match v with
  | RulesValue.missing => DEFAULT_RULES
  | RulesValue.parseError => DEFAULT_RULES
  | RulesValue.parsedNonArray => DEFAULT_RULES.filter (fun r => DEFAULT_RULES.contains r)
  | RulesValue.parsedRules rules => rules.filter (fun r => DEFAULT_RULES.contains r)

/-! Helper lemmas. -/

theorem sortInsert_perm {α : Type} (c : α → α → Int) (a : α) (l : List α) :
    (sortInsert c a l).Perm (a :: l) := by
  induction l with
  | nil => exact List.Perm.refl _
  | cons b t ih =>
    simp only [sortInsert]
    by_cases h : c a b ≤ 0
    · rw [if_pos h]
    · rw [if_neg h]
      exact (ih.cons b).trans (List.Perm.swap a b t)

theorem jsSort_perm {α : Type} (c : α → α → Int) (l : List α) :
    (jsSort c l).Perm l := by
  induction l with
  | nil => exact List.Perm.refl _
  | cons a t ih =>
    simp only [jsSort]
    exact (sortInsert_perm c a (jsSort c t)).trans (ih.cons a)

theorem foldl_min_min (a b : Int) (l : List Int) :
    l.foldl min (min a b) = min a (l.foldl min b) := by
  induction l generalizing b with
  | nil => simp
  | cons c cs ih => simp only [List.foldl_cons, min_assoc, ih]

theorem min?_eq_foldl (x : Int) (xs : List Int) : (x :: xs).min? = some (xs.foldl min x) := by
  induction xs generalizing x with
  | nil => rfl
  | cons y ys ih =>
    rw [List.min?_cons, ih y, List.foldl_cons]
    simp only [Option.elim_some]
    rw [foldl_min_min]

theorem capacity_foldl (f : Component → Int) (cs : List Component) (a : Int) :
    cs.foldl
      (fun capacity c =>
        match capacity with
        | none => some (f c)
        | some v => some (min v (f c)))
      (some a)
    = some (cs.foldl (fun x c => min x (f c)) a) := by
  induction cs generalizing a with
  | nil => rfl
  | cons c cs ih => simp only [List.foldl_cons]; exact ih _

theorem join_range_chunks {α : Type} :
    ∀ (k : Nat) (l : List α), l.length ≤ k * 250 →
      ((List.range k).map (fun i => (l.drop (i * 250)).take 250)).flatten = l := by
  intro k
  induction k with
  | zero =>
    intro l h
    have hl : l = [] := List.eq_nil_of_length_eq_zero (by omega)
    subst hl; rfl
  | succ k ih =>
    intro l h
    rw [List.range_succ_eq_map, List.map_cons, List.flatten_cons, List.map_map]
    have hc : ∀ i ∈ List.range k,
        ((fun i => (l.drop (i * 250)).take 250) ∘ Nat.succ) i
          = (fun i => (((l.drop 250).drop (i * 250)).take 250)) i := by
      intro i _
      simp only [Function.comp_apply]
      rw [List.drop_drop]
      congr 2
      omega
    rw [List.map_congr_left hc, ih (l.drop 250) (by rw [List.length_drop]; omega)]
    simp only [Nat.zero_mul, List.drop_zero]
    exact List.take_append_drop 250 l

theorem moveChunks_join (moves : List Move) : (moveChunks moves).flatten = moves := by
  exact join_range_chunks ((moves.length + 249) / 250) moves (by omega)

theorem moveChunks_all_le (moves : List Move) :
    (moveChunks moves).all (fun ch => ch.length ≤ 250) = true := by
  simp only [List.all_eq_true, decide_eq_true_eq, moveChunks, List.mem_map, List.mem_range]
  rintro ch ⟨k, _, rfl⟩
  rw [List.length_take]
  omega

theorem movesOf_positions (l : List String) :
    (movesOf l).map Move.newPosition = List.range l.length := by
  simp only [movesOf, List.map_map]
  have h : (Move.newPosition ∘ fun p : Nat × String => ({ id := p.2, newPosition := p.1 } : Move))
      = Prod.fst := rfl
  rw [h, List.enum_map_fst]

theorem capOf_coe (N len : Nat) : capOf (some (N : Int)) len = min N len := by
  simp only [capOf]
  omega

/-! Claim theorems. -/

/-- Claim C1: the ranking comparator places A before B iff A is in stock and B
is not; or they tie on inStock and A sold strictly more in 90 days; or they
tie on both and A has strictly more variants in stock; or they tie on all
three and A's title is lexicographically (case-sensitive) smaller; and on the
full-tie example pair (title "Zeta" vs "Alpha", everything else equal) the
ranking output is [B, A]. -/
theorem c1_ranking_comparator :
    (∀ a b : DecoratedProduct,
        cmpProducts a b < 0 ↔
          ((a.inStock = true ∧ b.inStock = false)
            ∨ (a.inStock = b.inStock ∧ b.sold90 < a.sold90)
            ∨ (a.inStock = b.inStock ∧ a.sold90 = b.sold90
                ∧ b.variantInStock < a.variantInStock)
            ∨ (a.inStock = b.inStock ∧ a.sold90 = b.sold90
                ∧ a.variantInStock = b.variantInStock ∧ jsStrLt a.title b.title = true)))
    ∧ rankIds (fun _ => some 10)
        [{ id := "gid-zeta", title := "Zeta", variants := [⟨true⟩, ⟨true⟩] },
         { id := "gid-alpha", title := "Alpha", variants := [⟨true⟩, ⟨true⟩] }]
      = ["gid-alpha", "gid-zeta"] := by
  constructor
  · intro a b
    unfold cmpProducts
    by_cases h1 : a.inStock = b.inStock
    · rw [if_neg (not_not_intro h1)]
      by_cases h2 : a.sold90 = b.sold90
      · rw [if_neg (not_not_intro h2)]
        by_cases h3 : a.variantInStock = b.variantInStock
        · rw [if_neg (not_not_intro h3)]
          unfold localeCompare
          by_cases h4 : jsStrLt a.title b.title = true
          · rw [if_pos h4]
            constructor
            · intro _
              exact Or.inr (Or.inr (Or.inr ⟨h1, h2, h3, h4⟩))
            · intro _
              decide
          · rw [if_neg h4]
            by_cases h5 : jsStrLt b.title a.title = true
            · rw [if_pos h5]
              constructor
              · intro h
                exact absurd h (by decide)
              · rintro (⟨ht, hf⟩ | ⟨_, hs⟩ | ⟨_, _, hv⟩ | ⟨_, _, _, hlt⟩)
                · rw [← h1] at hf
                  rw [ht] at hf
                  exact absurd hf (by decide)
                · omega
                · omega
                · exact absurd hlt h4
            · rw [if_neg h5]
              constructor
              · intro h
                exact absurd h (by decide)
              · rintro (⟨ht, hf⟩ | ⟨_, hs⟩ | ⟨_, _, hv⟩ | ⟨_, _, _, hlt⟩)
                · rw [← h1] at hf
                  rw [ht] at hf
                  exact absurd hf (by decide)
                · omega
                · omega
                · exact absurd hlt h4
        · rw [if_pos h3]
          constructor
          · intro h
            exact Or.inr (Or.inr (Or.inl ⟨h1, h2, by omega⟩))
          · rintro (⟨ht, hf⟩ | ⟨_, hs⟩ | ⟨_, _, hv⟩ | ⟨_, _, hveq, _⟩)
            · rw [← h1] at hf
              rw [ht] at hf
              exact absurd hf (by decide)
            · omega
            · omega
            · exact absurd hveq h3
      · rw [if_pos h2]
        constructor
        · intro h
          exact Or.inr (Or.inl ⟨h1, by omega⟩)
        · rintro (⟨ht, hf⟩ | ⟨_, hs⟩ | ⟨_, he, _⟩ | ⟨_, he, _, _⟩)
          · rw [← h1] at hf
            rw [ht] at hf
            exact absurd hf (by decide)
          · omega
          · exact absurd he h2
          · exact absurd he h2
    · rw [if_pos h1]
      by_cases ha : a.inStock = true
      · rw [if_pos ha]
        have hb : b.inStock = false := by
          cases hbv : b.inStock
          · rfl
          · exact absurd (ha.trans hbv.symm) h1
        constructor
        · intro _
          exact Or.inl ⟨ha, hb⟩
        · intro _
          decide
      · rw [if_neg ha]
        constructor
        · intro h
          exact absurd h (by decide)
        · rintro (⟨ht, _⟩ | ⟨he, _⟩ | ⟨he, _, _⟩ | ⟨he, _, _, _⟩)
          · exact absurd ht ha
          · exact absurd he h1
          · exact absurd he h1
          · exact absurd he h1
  · decide

/-- Claim C10: the desired order computed by the ranking engine is a
permutation of the ids of the fetched products: no product is dropped or
duplicated, and no foreign id appears. -/
theorem c10_rank_permutation (sales90 : String → Option Int) (items : List RawProduct) :
    (rankIds sales90 items).Perm (items.map RawProduct.id) := by
  have h := (jsSort_perm cmpProducts (items.map (decorate sales90))).map DecoratedProduct.id
  rw [List.map_map] at h
  have he : (DecoratedProduct.id ∘ decorate sales90) = RawProduct.id := rfl
  rw [he] at h
  simpa [rankIds] using h

/-- Claim C2: re-ingesting the same remote line item is a no-op: the second
ingestion leaves the whole table unchanged, and the single row stored under
the line id after the first ingestion is the pre-existing row if there was
one, else exactly the row created from the remote item. -/
theorem c2_orderline_idempotent (db : OrderLineDB) (li : RemoteLineItem) :
    ingestOrderLine (ingestOrderLine db li) li = ingestOrderLine db li
    ∧ (ingestOrderLine db li) li.id = some ((db li.id).getD (rowOfRemote li)) := by
  constructor
  · funext k
    by_cases hk : k = li.id
    · subst hk
      cases h : db li.id <;> simp [ingestOrderLine, h]
    · simp [ingestOrderLine, hk]
  · cases h : db li.id <;> simp [ingestOrderLine, h]

set_option maxRecDepth 40000 in
/-- Claim C3: applying a desired order with top-N cap N keeps exactly the
first min(N, L) ids, assigns them the zero-based positions 0..min(N,L)-1,
and submits exactly those moves in chunks of at most 250; a desired order of
600 ids with topN 500 yields exactly two chunks of 250 moves each and no move
targets a position of 500 or more. -/
theorem c3_chunked_apply :
    (∀ (desired : List String) (N : Nat),
        applyTopN (some (N : Int)) desired = desired.take (min N desired.length)
        ∧ (movesOf (applyTopN (some (N : Int)) desired)).map Move.newPosition
            = List.range (min N desired.length)
        ∧ (moveChunks (movesOf (applyTopN (some (N : Int)) desired))).flatten
            = movesOf (applyTopN (some (N : Int)) desired)
        ∧ (moveChunks (movesOf (applyTopN (some (N : Int)) desired))).all
            (fun ch => ch.length ≤ 250) = true)
    ∧ (moveChunks (movesOf (applyTopN (some 500) (List.replicate 600 "gid")))).map
        List.length = [250, 250]
    ∧ (moveChunks (movesOf (applyTopN (some 500) (List.replicate 600 "gid")))).all
        (fun ch => ch.all (fun mv => mv.newPosition < 500)) = true := by
  refine ⟨fun desired N => ⟨?_, ?_, moveChunks_join _, moveChunks_all_le _⟩, ?_, ?_⟩
  · simp only [applyTopN, capOf_coe]
  · rw [movesOf_positions]
    have hlen : (applyTopN (some (N : Int)) desired).length = min N desired.length := by
      simp only [applyTopN, capOf_coe, List.length_take]
      omega
    rw [hlen]
  · decide
  · decide

/-- Claim C4: the bundle capacity is the minimum over the components of
floor(available / max(1, qty)) and 0 for an empty component list (stated as
one equation through List.min?, whose default is 0); the quantities-revision
loop (Infinity-seeded) computes the same value as the null-seeded loop; and
components (qty 2, available 10) and (qty 3, available 7) give capacity 2. -/
theorem c4_bundle_capacity :
    (∀ (avail : String → Option Int) (cs : List Component),
        capacityOf avail cs = ((cs.map (capThis avail)).min?).getD 0
        ∧ capacityOfInf avail cs = capacityOf avail cs)
    ∧ capacityOf
        (fun v => if v = "gid-v1" then some 10 else if v = "gid-v2" then some 7 else none)
        [{ variantId := "gid-v1", qty := 2 }, { variantId := "gid-v2", qty := 3 }] = 2
    ∧ capacityOf (fun _ => none) [] = 0 := by
  refine ⟨fun avail cs => ?_, by decide, by decide⟩
  cases cs with
  | nil => exact ⟨rfl, rfl⟩
  | cons c rest =>
    refine ⟨?_, rfl⟩
    simp only [capacityOf, List.foldl_cons]
    rw [capacity_foldl (capThis avail) rest (capThis avail c)]
    rw [List.map_cons, min?_eq_foldl, List.foldl_map]

/-- Claim C5 (counterexample): two successful ingestion runs for the same
shop, the first with explicit since 2024-01-01 and the second with explicit
since 2020-01-01, leave the stored sinceISO strictly smaller than it was
after the first run — the stored date does decrease across successful runs,
contrary to the claim. -/
theorem c5_cursor_not_monotone :
    upsertIngestCursor (fun _ => none) "demo-shop"
        (sinceISOOf (fun _ _ => "1970-01-01") (some "2024-01-01") 1700000000000 90)
        "demo-shop" = some "2024-01-01"
    ∧ upsertIngestCursor
        (upsertIngestCursor (fun _ => none) "demo-shop"
          (sinceISOOf (fun _ _ => "1970-01-01") (some "2024-01-01") 1700000000000 90))
        "demo-shop"
        (sinceISOOf (fun _ _ => "1970-01-01") (some "2020-01-01") 1700000086400000 90)
        "demo-shop" = some "2020-01-01"
    ∧ jsStrLt "2020-01-01" "2024-01-01" = true := by
  refine ⟨by decide, by decide, by decide⟩

/-- Claim C5 (amended): the IngestCursor table holds one row per shop (keyed
by shop); a successful run stores exactly the run's effective since date
(the explicit since parameter when present, else the computed default) in
that shop's row, leaving every other shop's row unchanged, and of two
successive successful runs the later one's date wins — so the stored date is
not monotone and decreases whenever a later run uses an earlier since. -/
theorem c5_cursor_row_per_shop (db : CursorDB) (shop v1 v2 other s : String)
    (dISO : Int → Int → String) (now days : Int) :
    upsertIngestCursor db shop v1 shop = some v1
    ∧ upsertIngestCursor (upsertIngestCursor db shop v1) shop v2 shop = some v2
    ∧ upsertIngestCursor db shop v1 other = (if other = shop then some v1 else db other)
    ∧ sinceISOOf dISO (some s) now days = s
    ∧ sinceISOOf dISO none now days = dISO now days := by
  refine ⟨?_, ?_, rfl, rfl, rfl⟩
  · simp [upsertIngestCursor]
  · simp [upsertIngestCursor]

/-- Claim C6: a batch-all run yields exactly one results entry per attempted
collection, each entry determined by that collection alone (so a throwing
collection contributes an error entry without stopping later ones, an empty
collection a skipped entry, the rest normal outcomes); concretely, when
collection 2 of 3 throws, the results are [moved, error, moved]. -/
theorem c6_batch_isolation :
    (∀ (env : BatchEnv) (dryRun : Bool) (topN : Nat) (cs : List CollectionRef),
        processAll env dryRun topN cs = cs.map (processCollection env dryRun topN)
        ∧ (processAll env dryRun topN cs).length = cs.length)
    ∧ processAll
        { fetchProducts := fun id =>
            if id = "gid-c2" then Except.error "boom"
            else Except.ok [{ id := id ++ "-p", title := "T", variants := [⟨true⟩] }]
          fetchSales := fun _ => Except.ok (fun _ => none)
          applySort := fun _ _ => Except.ok () }
        false 500 [⟨"gid-c1", "One"⟩, ⟨"gid-c2", "Two"⟩, ⟨"gid-c3", "Three"⟩]
      = [BatchResult.movedResult "gid-c1" "One" 1 1,
         BatchResult.errorResult "gid-c2" "Two" "boom",
         BatchResult.movedResult "gid-c3" "Three" 1 1] := by
  constructor
  · intro env dryRun topN cs
    have h : ∀ l : List CollectionRef,
        processAll env dryRun topN l = l.map (processCollection env dryRun topN) := by
      intro l
      induction l with
      | nil => rfl
      | cons c rest ih => simp [processAll, ih]
    exact ⟨h cs, by rw [h cs, List.length_map]⟩
  · decide

/-- Claim C7: with weeks derived from days = max(14, requested, default 28),
the per-variant KPIs are weekly = units/weeks, weeks-of-supply =
onHand/weekly for positive weekly and infinite (none) otherwise, and
sell-through = 100·units/(units+onHand) with 0 for a zero denominator; the
example onHand 100, 20 units over 4 weeks gives weekly 5, weeks-of-supply 20
and sell-through 50/3 ≈ 16.7 percent. -/
theorem c7_kpi_formulas :
    (∀ (weeks onHand u : Rat),
        (variantKpi weeks onHand u).weekly = u / weeks
        ∧ (variantKpi weeks onHand u).wos
            = (if 0 < u / weeks then some (onHand / (u / weeks)) else none)
        ∧ (variantKpi weeks onHand u).sellThrough
            = (if 0 < u + onHand then (u * 100) / (u + onHand) else 0))
    ∧ (∀ (param : Option Rat), kpiDays param = max 14 (param.getD 28)
        ∧ kpiWeeks param = kpiDays param / 7)
    ∧ kpiDays none = 28
    ∧ kpiWeeks (some 28) = 4
    ∧ (variantKpi 4 100 20).weekly = 5
    ∧ (variantKpi 4 100 20).wos = some 20
    ∧ (variantKpi 4 100 20).sellThrough = 50 / 3
    ∧ round ((variantKpi 4 100 20).sellThrough * 10) = 167 := by
  refine ⟨fun weeks onHand u => ⟨rfl, rfl, rfl⟩, fun param => ⟨rfl, rfl⟩,
    by norm_num [kpiDays], by norm_num [kpiWeeks, kpiDays], ?_, ?_, ?_, ?_⟩
  · norm_num [variantKpi]
  · norm_num [variantKpi]
  · norm_num [variantKpi]
  · norm_num [variantKpi, round_eq]

/-- Claim C8: the bundle-capacity calculation fails only when both inventory
query forms are rejected: its outcome is an error exactly when the primary
structured quantities query and the deprecated aggregate fallback both carry
GraphQL errors; with the primary rejected and the fallback answering, the
capacity is computed from the fallback data. -/
theorem c8_inventory_fallback :
    (∀ (env : InventoryEnv) (cs : List Component),
        (computeBundleCapacity env cs).isOk
          = (!(hasGraphQLErr env.primary) || !(hasGraphQLErr env.fallback)))
    ∧ computeBundleCapacity
        { primary := { errors := ["quantities is not supported"], data := none },
          fallback :=
            { errors := [],
              data := some
                [{ id := some "gid-v1", inventoryQuantity := some 10 },
                 { id := some "gid-v2", inventoryQuantity := some 7 }] } }
        [{ variantId := "gid-v1", qty := 2 }, { variantId := "gid-v2", qty := 3 }]
      = Except.ok 2
    ∧ computeBundleCapacity
        { primary := { errors := ["bad query"], data := none },
          fallback := { errors := ["still bad"], data := none } }
        [{ variantId := "gid-v1", qty := 2 }]
      = Except.error "still bad" := by
  refine ⟨fun env cs => ?_, rfl, rfl⟩
  unfold computeBundleCapacity fetchAvailability
  cases hp : hasGraphQLErr env.primary <;> cases hf : hasGraphQLErr env.fallback <;>
    simp [hp, hf, Except.isOk, Except.toBool]

/-- Claim C9 (counterexample): a persisted empty rules array is not replaced
by the default order — loading the parsed value whose rules field is the
empty array returns the empty list, not DEFAULT_RULES. -/
theorem c9_empty_rules_not_default :
    loadCollectionRules (RulesValue.parsedRules []) = []
    ∧ loadCollectionRules (RulesValue.parsedRules []) ≠ DEFAULT_RULES := by
  exact ⟨rfl, by decide⟩

/-- Claim C9 (amended): loading the persisted strategy rule list returns only
identifiers from the known set (unknown ones filtered out); a missing value,
an unparseable value, or a non-array rules field falls back to the default
rule order, while a persisted array keeps only its known identifiers — in
particular an empty persisted array yields the empty list. -/
theorem c9_rules_sanitized :
    (∀ v : RulesValue, (loadCollectionRules v).all (fun r => DEFAULT_RULES.contains r) = true)
    ∧ loadCollectionRules RulesValue.missing = DEFAULT_RULES
    ∧ loadCollectionRules RulesValue.parseError = DEFAULT_RULES
    ∧ loadCollectionRules RulesValue.parsedNonArray = DEFAULT_RULES
    ∧ loadCollectionRules (RulesValue.parsedRules []) = []
    ∧ loadCollectionRules
        (RulesValue.parsedRules ["alpha", "bogus", "in_stock"]) = ["alpha", "in_stock"] := by
  refine ⟨?_, rfl, rfl, by decide, rfl, by decide⟩
  intro v
  cases v with
  | missing => decide
  | parseError => decide
  | parsedNonArray => decide
  | parsedRules rules =>
    simp only [loadCollectionRules, List.all_eq_true]
    intro r hr
    exact (List.mem_filter.mp hr).2

end CollectionSort
